import Mathlib

/-!
# cks: logger option composition and fatal-error handling

A shallow embedding of `pkg/logger` (`option.go`, `logger.go`) and `pkg/error`
(`error.go`) of the repository, followed by theorems about it.

Conventions of the embedding:

* a Go `map[K]V` is an association list with pairwise distinct keys; assigning
  to a present key replaces the value in place, assigning to an absent key adds
  an entry.  `range` over a map visits the entries in an unspecified order, so
  every function that ranges over a map takes the visiting order as an argument
  and the theorems quantify over all permutations of the entries;
* a Go `error` is `Option GoError` (`none` is `nil`); a function returning
  `(value, error)` with exactly one of them non-nil returns `Except GoError _`;
* package-level variables and standard output live in the process state `Proc`;
* what the environment decides (the clock, recorded call stacks, whether zap can
  open its sinks, zap's default configuration) is passed in as an argument.
-/

namespace Cks

/-! ## Errors (`github.com/pkg/errors` as used by the repository) -/

/-- An error value: its `Error()` text, its `%+v` rendering, and, for a wrapping
error, the inner error that `Unwrap` returns. -/
inductive GoError where
  | root (short : String) (detail : String)
  | wrap (short : String) (detail : String) (cause : GoError)
  deriving DecidableEq, Repr

namespace GoError

/-- The text of `err.Error()`. -/
def Error : GoError → String
  | root s _ => s
  | wrap s _ _ => s

/-- The text `%+v` prints for the error. -/
def detail : GoError → String
  | root _ d => d
  | wrap _ d _ => d

end GoError

/-- `errors.Unwrap(err)`: the inner error, `nil` when there is none. -/
def Unwrap : GoError → Option GoError
  | .root _ _ => none
  | .wrap _ _ c => some c

/-- `errors.Errorf` with the message already formatted: a fresh error without a
cause whose `%+v` rendering is the message followed by the recorded call stack. -/
def Errorf (stack : String) (msg : String) : GoError :=
  .root msg (msg ++ stack)

/-- `errors.WithMessage(err, message)` for a non-nil `err`. -/
def WithMessage (err : GoError) (message : String) : GoError :=
  .wrap (message ++ ": " ++ err.Error) (err.detail ++ "\n" ++ message) err

/-- `errors.Wrap(err, message)` for a non-nil `err`: a message layer below a
stack layer. -/
def Wrap (stack : String) (err : GoError) (message : String) : GoError :=
  .wrap (WithMessage err message).Error ((WithMessage err message).detail ++ stack)
    (WithMessage err message)

/-! ## Go maps -/

/-- The statement `m[k] = v`. -/
def mapAssign {κ ν : Type} [DecidableEq κ] : List (κ × ν) → κ → ν → List (κ × ν)
  | [], k, v => [(k, v)]
  | (k', v') :: rest, k, v =>
    if k' = k then (k, v) :: rest else (k', v') :: mapAssign rest k v

/-- The expression `v, ok := m[k]`. -/
def mapLookup {κ ν : Type} [DecidableEq κ] : List (κ × ν) → κ → Option ν
  | [], _ => none
  | (k', v') :: rest, k => if k' = k then some v' else mapLookup rest k

/-- The keys of a map. -/
def mapKeys {κ ν : Type} (m : List (κ × ν)) : List κ := m.map Prod.fst

/-! ## `pkg/logger/option.go` -/

/-- The type `zapcore.Level` (an `int8`). -/
abbrev Level := Int

def DebugLevel : Level := -1
def InfoLevel : Level := 0
def WarnLevel : Level := 1
def ErrorLevel : Level := 2
def PanicLevel : Level := 4

/-- The method `Enabled` of zap's level enabler: a record at level `lvl` is let
through by a logger configured at level `l` when `lvl >= l`. -/
def Level.Enabled (l : Level) (lvl : Level) : Bool := decide (lvl ≥ l)

/-- The fields of `zap.Config` that do not hold encoder or sampling settings. -/
structure Config where
  Level : Level
  Development : Bool
  DisableCaller : Bool
  DisableStacktrace : Bool
  Encoding : String
  OutputPaths : List String
  ErrorOutputPaths : List String
  deriving DecidableEq, Repr

/-- The type `LogOptionType` (a `uint16`).  The only operations on it are `<<` of
1 by at most 2, `|` and `&`, none of which can leave the 16 bits. -/
abbrev LogOptionType := Nat

def LogLevelOpt : LogOptionType := 1 <<< 0
def EnableLogFileOpt : LogOptionType := 1 <<< 1
def LogFilePathOpt : LogOptionType := 1 <<< 2

/-- The interface `LogOption`. -/
class LogOption (α : Type) where
  OptType : α → LogOptionType
  ConfigLogger : α → LogOptionType → Config → Except GoError Config

/-- The three types of the package that implement `LogOption`. -/
inductive Builtin where
  | logLevelOption (Level : Level)
  | enableLogFileOption
  | logFilePathOption (FilePath : String)
  deriving DecidableEq, Repr

/-- The methods `OptType` of the three option types. -/
def Builtin.OptType : Builtin → LogOptionType
  | .logLevelOption _ => LogLevelOpt
  | .enableLogFileOption => EnableLogFileOpt
  | .logFilePathOption _ => LogFilePathOpt

/-- The methods `ConfigLogger` of the three option types. -/
def Builtin.ConfigLogger : Builtin → LogOptionType → Config → Except GoError Config
  | .logLevelOption l, _, cfg => .ok { cfg with Level := l }
  | .enableLogFileOption, _, cfg => .ok cfg
  | .logFilePathOption p, opts, cfg =>
    let enable := EnableLogFileOpt ||| LogFilePathOpt
    if (opts &&& enable) = enable then
      .ok { cfg with OutputPaths := cfg.OutputPaths ++ [p] }
    else
      .ok cfg

instance : LogOption Builtin where
  OptType := Builtin.OptType
  ConfigLogger := Builtin.ConfigLogger

/-- The table `logLevelMap`. -/
def logLevelMap : List (String × Level) :=
  [("debug", DebugLevel), ("info", InfoLevel), ("warn", WarnLevel),
   ("error", ErrorLevel), ("panic", PanicLevel)]

/-- The loop body shared by `PrintAvailLogLevel` and `PrintAvailExitOnErr`, run
over the keys in the order `range` yields them, and the final `s[:len(s)-2]`. -/
def printAvail (keys : List String) : String :=
  (keys.foldl (fun s k => s ++ "\"" ++ k ++ "\", ") "").dropRight 2

/-- `PrintAvailLogLevel`, with `visit` the order in which `range` yields the
keys of `logLevelMap`. -/
def PrintAvailLogLevel (visit : List String → List String) : String :=
  printAvail (visit (mapKeys logLevelMap))

/-- `NewLogLevelOption`. -/
def NewLogLevelOption (visit : List String → List String) (stack : String) (lvl : String) :
    Except GoError Builtin :=
  match mapLookup logLevelMap lvl with
  | some l => .ok (.logLevelOption l)
  | none =>
    .error (Errorf stack
      ("unsupported log level: " ++ lvl ++ ", only support " ++ PrintAvailLogLevel visit))

/-- `NewEnableLogFileOption`. -/
def NewEnableLogFileOption : Except GoError Builtin := .ok .enableLogFileOption

/-- `NewLogFilePathOption`. -/
def NewLogFilePathOption (p : String) : Except GoError Builtin := .ok (.logFilePathOption p)

/-! ## `pkg/utils/utils.go` -/

/-- What `utils.Printf(format, a...)` writes, given the formatted current time
`now` and `body`, the result of substituting `a` into `format`. -/
def utilsPrintf (now : String) (body : String) : String :=
  now ++ " * * * * * * " ++ body ++ "\n"

/-- What `utils.Println(a)` writes for a single string `a`. -/
def utilsPrintln (now : String) (a : String) : String :=
  now ++ " * * * * * *" ++ " " ++ a ++ "\n"

/-! ## Process state -/

/-- A logger built by `cfg.Build(zap.WithCaller(true), zap.AddCallerSkip(1))`. -/
structure Logger where
  cfg : Config
  addCaller : Bool
  callerSkip : Nat
  deriving DecidableEq, Repr

/-- The two functions of type `HandleErr` defined in `pkg/error`. -/
inductive HandleErr where
  | simple
  | detail
  deriving DecidableEq, Repr

/-- The state of the process: `user` is whatever the cleanup callbacks act on,
`out` the chunks written to standard output (oldest first), `ExitOnErr` the
package variable of `pkg/error`, and `globalL` zap's global logger (`none` is
the no-op logger zap starts with). -/
structure Proc (σ : Type) where
  user : σ
  out : List String
  ExitOnErr : HandleErr
  globalL : Option Logger

/-- The state after writing `s` to standard output. -/
def Proc.print {σ : Type} (p : Proc σ) (s : String) : Proc σ :=
  { p with out := p.out ++ [s] }

/-! ## `pkg/logger/logger.go` -/

/-- `tidyOptsAndCalBitmap`. -/
def tidyOptsAndCalBitmap {α : Type} [LogOption α] (opts : List α) :
    List (LogOptionType × α) × LogOptionType :=
  opts.foldl
    (fun acc opt =>
      (mapAssign acc.1 (LogOption.OptType opt) opt, acc.2 ||| LogOption.OptType opt))
    ([], 0)

/-- The loop `for _, v := range opts` of `InitLogger` over the entries in the
order given: it stops at the first option whose `ConfigLogger` fails. -/
def applyOptions {α : Type} [LogOption α] (bitmap : LogOptionType) :
    List (LogOptionType × α) → Config → Except GoError Config
  | [], cfg => .ok cfg
  | (_, v) :: rest, cfg =>
    match LogOption.ConfigLogger v bitmap cfg with
    | .error err => .error err
    | .ok cfg' => applyOptions bitmap rest cfg'

/-- `zap.ReplaceGlobals(logger)`: installs the logger and returns the function
that restores the previous one. -/
def ReplaceGlobals {σ : Type} (logger : Logger) (p : Proc σ) : (Proc σ → Proc σ) × Proc σ :=
  (fun q => { q with globalL := p.globalL }, { p with globalL := some logger })

/-- The end of `InitLogger`, from `cfg.Build` on: `buildErr cfg` is the error
`cfg.Build` returns (if any), `stack` the call stack `errors.Wrap` records. -/
def buildLogger {σ : Type} (stack : String) (buildErr : Config → Option GoError)
    (cfg : Config) (p : Proc σ) : Except GoError ((Proc σ → Proc σ) × Config) × Proc σ :=
  match buildErr cfg with
  | some err => (.error (Wrap stack err "failed to build global logger"), p)
  | none =>
    let (undo, p) := ReplaceGlobals { cfg := cfg, addCaller := true, callerSkip := 1 } p
    (.ok (undo, cfg), p)

/-- `InitLogger`.  `now` is the formatted current time, `stack` the call stack
`errors.Wrap` records, `newDevelopmentConfig` the value of
`zap.NewDevelopmentConfig()`, `buildErr cfg` the error `cfg.Build` returns (if
any), and `visit` the order in which `range` yields the entries of the map. -/
def InitLogger {α σ : Type} [LogOption α] (now stack : String) (newDevelopmentConfig : Config)
    (buildErr : Config → Option GoError)
    (visit : List (LogOptionType × α) → List (LogOptionType × α))
    (options : List α) (p : Proc σ) :
    Except GoError ((Proc σ → Proc σ) × Config) × Proc σ :=
  let p := p.print (utilsPrintln now "start to init log system.")
  let cfg := newDevelopmentConfig
  let cfg := { cfg with OutputPaths := ["stdout"] }
  let cfg := { cfg with DisableStacktrace := true }
  let (opts, bitmap) := tidyOptsAndCalBitmap options
  match applyOptions bitmap (visit opts) cfg with
  | .error err => (.error (Wrap stack err "failed to apply options"), p)
  | .ok cfg => buildLogger stack buildErr cfg p

/-! ## `pkg/error/error.go` -/

/-- The loop `for _, f := range cleanFuncs { if f != nil { f() } }`; a `nil`
entry of the slice is `none`. -/
def runCleanFuncs {σ : Type} : List (Option (Proc σ → Proc σ)) → Proc σ → Proc σ
  | [], p => p
  | none :: rest, p => runCleanFuncs rest p
  | some f :: rest, p => runCleanFuncs rest (f p)

/-- The loop `for ; errors.Unwrap(err) != nil; err = errors.Unwrap(err) {}`:
the value of `err` when it ends. -/
def unwrapLoop : GoError → GoError
  | .root s d => .root s d
  | .wrap _ _ c => unwrapLoop c

/-- The same loop run step by step, with at most `fuel` executions of its post
statement `err = errors.Unwrap(err)`: the value of `err` when the condition
fails, and the values `err` held before each execution of the post statement
(oldest first); `none` when the fuel does not suffice. -/
def unwrapLoopFuel : Nat → GoError → Option (GoError × List GoError)
  | 0, err =>
    match Unwrap err with
    | none => some (err, [])
    | some _ => none
  | fuel + 1, err =>
    match Unwrap err with
    | none => some (err, [])
    | some c => (unwrapLoopFuel fuel c).map (fun r => (r.1, err :: r.2))

/-- `simpleExitOnErr`.  The second component is the status passed to `os.Exit`
when the process was terminated, `none` when the function returned. -/
def simpleExitOnErr {σ : Type} (now : String) (err : Option GoError)
    (cleanFuncs : List (Option (Proc σ → Proc σ))) (p : Proc σ) : Proc σ × Option Nat :=
  match err with
  | some e =>
    let p := p.print (utilsPrintf now ("exit on fatal error: " ++ e.Error ++ "\n"))
    let p := runCleanFuncs cleanFuncs p
    (p, some 1)
  | none => (p, none)

/-- `detailExitOnErr`, with the same result convention as `simpleExitOnErr`. -/
def detailExitOnErr {σ : Type} (now : String) (err : Option GoError)
    (cleanFuncs : List (Option (Proc σ → Proc σ))) (p : Proc σ) : Proc σ × Option Nat :=
  match err with
  | some e =>
    let s := e.Error
    let e := unwrapLoop e
    let p := p.print
      (utilsPrintf now ("exit on fatal error: " ++ (WithMessage e s).detail ++ "\n"))
    let p := runCleanFuncs cleanFuncs p
    (p, some 1)
  | none => (p, none)

/-- Calling a value of type `HandleErr`. -/
def HandleErr.call {σ : Type} (h : HandleErr) (now : String) (err : Option GoError)
    (cleanFuncs : List (Option (Proc σ → Proc σ))) (p : Proc σ) : Proc σ × Option Nat :=
  match h with
  | .simple => simpleExitOnErr now err cleanFuncs p
  | .detail => detailExitOnErr now err cleanFuncs p

/-- The package initialiser `init`: the value of `ExitOnErr` at process start. -/
def initExitOnErr : HandleErr := .detail

/-- The table `exitOnErrMap`. -/
def exitOnErrMap : List (String × HandleErr) :=
  [("simple", .simple), ("detail", .detail)]

/-- `PrintAvailExitOnErr`, with `visit` the order in which `range` yields the
keys of `exitOnErrMap`. -/
def PrintAvailExitOnErr (visit : List String → List String) : String :=
  printAvail (visit (mapKeys exitOnErrMap))

/-- `UpdateErrHandling`.  `now₁` and `now₂` are the formatted times of the two
prints, `stack` the call stack `errors.Errorf` records. -/
def UpdateErrHandling {σ : Type} (now₁ now₂ stack : String)
    (visit : List String → List String) (t : String) (p : Proc σ) :
    Option GoError × Proc σ :=
  let p := p.print (utilsPrintln now₁ "start to init error handling.")
  match mapLookup exitOnErrMap t with
  | some h =>
    let p := p.print (utilsPrintf now₂ (t ++ " information is enabled in ExitOnErr."))
    (none, { p with ExitOnErr := h })
  | none =>
    (some (Errorf stack
      ("unknown type of ExitOnErr: " ++ t ++ ", only support " ++ PrintAvailExitOnErr visit)), p)

/-! ## `pkg/logger/logger.go`: the sugared logger -/

/-- A record a logger writes to its sinks: its level and its message. -/
structure Record where
  level : Level
  msg : String
  deriving DecidableEq, Repr

/-- zap's `(*SugaredLogger).log` at a level below `DPanicLevel`: the record is
written when the level is enabled and dropped otherwise.  `getMessage` is zap's
function of that name, which builds the message from the template and the
arguments; the result is the list of records written. -/
def sugaredLog {A : Type} (getMessage : String → List A → String) (l : Logger) (lvl : Level)
    (template : String) (args : List A) : List Record :=
  if l.cfg.Level.Enabled lvl then [{ level := lvl, msg := getMessage template args }] else []

/-- zap's `(*SugaredLogger).Debug`. -/
def Zap.Debug {A : Type} (getMessage : String → List A → String) (l : Logger)
    (args : List A) : List Record :=
  sugaredLog getMessage l DebugLevel "" args

/-- zap's `(*SugaredLogger).Info`. -/
def Zap.Info {A : Type} (getMessage : String → List A → String) (l : Logger)
    (args : List A) : List Record :=
  sugaredLog getMessage l InfoLevel "" args

/-- zap's `(*SugaredLogger).Warn`. -/
def Zap.Warn {A : Type} (getMessage : String → List A → String) (l : Logger)
    (args : List A) : List Record :=
  sugaredLog getMessage l WarnLevel "" args

/-- zap's `(*SugaredLogger).Error`. -/
def Zap.Error {A : Type} (getMessage : String → List A → String) (l : Logger)
    (args : List A) : List Record :=
  sugaredLog getMessage l ErrorLevel "" args

/-- zap's `(*SugaredLogger).Debugf`. -/
def Zap.Debugf {A : Type} (getMessage : String → List A → String) (l : Logger)
    (template : String) (args : List A) : List Record :=
  sugaredLog getMessage l DebugLevel template args

/-- zap's `(*SugaredLogger).Infof`. -/
def Zap.Infof {A : Type} (getMessage : String → List A → String) (l : Logger)
    (template : String) (args : List A) : List Record :=
  sugaredLog getMessage l InfoLevel template args

/-- zap's `(*SugaredLogger).Warnf`. -/
def Zap.Warnf {A : Type} (getMessage : String → List A → String) (l : Logger)
    (template : String) (args : List A) : List Record :=
  sugaredLog getMessage l WarnLevel template args

/-- zap's `(*SugaredLogger).Errorf`. -/
def Zap.Errorf {A : Type} (getMessage : String → List A → String) (l : Logger)
    (template : String) (args : List A) : List Record :=
  sugaredLog getMessage l ErrorLevel template args

/-- The type `wrapSugaredLogger`. -/
structure wrapSugaredLogger where
  logger : Logger
  deriving DecidableEq, Repr

/-- The method `Info` of `wrapSugaredLogger`. -/
def wrapSugaredLogger.Info {A : Type} (getMessage : String → List A → String)
    (w : wrapSugaredLogger) (args : List A) : List Record :=
  Zap.Info getMessage w.logger args

/-- The method `Warn` of `wrapSugaredLogger`. -/
def wrapSugaredLogger.Warn {A : Type} (getMessage : String → List A → String)
    (w : wrapSugaredLogger) (args : List A) : List Record :=
  Zap.Warn getMessage w.logger args

/-- The method `Error` of `wrapSugaredLogger`. -/
def wrapSugaredLogger.Error {A : Type} (getMessage : String → List A → String)
    (w : wrapSugaredLogger) (args : List A) : List Record :=
  Zap.Error getMessage w.logger args

/-- The method `Debug` of `wrapSugaredLogger`. -/
def wrapSugaredLogger.Debug {A : Type} (getMessage : String → List A → String)
    (w : wrapSugaredLogger) (args : List A) : List Record :=
  Zap.Debug getMessage w.logger args

/-- The method `Infof` of `wrapSugaredLogger`. -/
def wrapSugaredLogger.Infof {A : Type} (getMessage : String → List A → String)
    (w : wrapSugaredLogger) (template : String) (args : List A) : List Record :=
  Zap.Infof getMessage w.logger template args

/-- The method `Warnf` of `wrapSugaredLogger`. -/
def wrapSugaredLogger.Warnf {A : Type} (getMessage : String → List A → String)
    (w : wrapSugaredLogger) (template : String) (args : List A) : List Record :=
  Zap.Warnf getMessage w.logger template args

/-- The method `Errorf` of `wrapSugaredLogger`. -/
def wrapSugaredLogger.Errorf {A : Type} (getMessage : String → List A → String)
    (w : wrapSugaredLogger) (template : String) (args : List A) : List Record :=
  Zap.Errorf getMessage w.logger template args

/-- The method `Debugf` of `wrapSugaredLogger`; its body is
`w.logger.Infof(template, args...)`. -/
def wrapSugaredLogger.Debugf {A : Type} (getMessage : String → List A → String)
    (w : wrapSugaredLogger) (template : String) (args : List A) : List Record :=
  Zap.Infof getMessage w.logger template args

/-- The method `UnwrappedStackErrorf` of `wrapSugaredLogger`: the records
written, and the state after `fmt.Printf("%+v\n", err)`; a `nil` error is
`none` and is printed as `<nil>`. -/
def wrapSugaredLogger.UnwrappedStackErrorf {A σ : Type}
    (getMessage : String → List A → String) (w : wrapSugaredLogger) (err : Option GoError)
    (template : String) (args : List A) (p : Proc σ) : List Record × Proc σ :=
  let err := err.map unwrapLoop
  let records := Zap.Errorf getMessage w.logger template args
  match err with
  | some e => (records, p.print (e.detail ++ "\n"))
  | none => (records, p.print "<nil>\n")

/-! ## Vocabulary of the statements -/

/-- Every option of the list, asked in turn to configure the logger, starting
from the configuration `c` and each on the configuration left by the one
before, returns `nil`; `c'` is the configuration after the last of them. -/
def OptionsApply {α : Type} [LogOption α] (bitmap : LogOptionType) :
    List (LogOptionType × α) → Config → Config → Prop
  | [], c, c' => c' = c
  | (_, v) :: rest, c, c' =>
    ∃ c₁, LogOption.ConfigLogger v bitmap c = .ok c₁ ∧ OptionsApply bitmap rest c₁ c'

/-- The number of wrapping layers of an error. -/
def depth : GoError → Nat
  | .root _ _ => 0
  | .wrap _ _ c => depth c + 1

/-- The elements of an error chain, outermost first: the error, the error it
wraps, and so on down to the error without an inner cause. -/
def chain : GoError → List GoError
  | .root s d => [.root s d]
  | .wrap s d c => .wrap s d c :: chain c

/-- The bitwise OR of a list of option kinds. -/
def orAll (ks : List LogOptionType) : LogOptionType := ks.foldr (fun k b => k ||| b) 0

/-- One iteration of the loop of `tidyOptsAndCalBitmap`. -/
def tidyStep {α : Type} [LogOption α] (acc : List (LogOptionType × α) × LogOptionType) (opt : α) :
    List (LogOptionType × α) × LogOptionType :=
  (mapAssign acc.1 (LogOption.OptType opt) opt, acc.2 ||| LogOption.OptType opt)

/-- Being the last element of `opts` of kind `k`, spelled out: `opts` splits
around `v`, and no element after `v` has kind `k`. -/
def IsLastOfKind {α : Type} [LogOption α] (opts : List α) (k : LogOptionType) (v : α) : Prop :=
  ∃ pre post, opts = pre ++ v :: post ∧ LogOption.OptType v = k ∧
    ∀ o ∈ post, LogOption.OptType o ≠ k

/-- The level carried by a log-level option. -/
def Builtin.level? : Builtin → Option Level
  | .logLevelOption l => some l
  | _ => none

/-- The path carried by a file-path option. -/
def Builtin.path? : Builtin → Option String
  | .logFilePathOption p => some p
  | _ => none

/-- The level of the last log-level option of a list, if it has one. -/
def lastLevel (opts : List Builtin) : Option Level := opts.reverse.findSome? Builtin.level?

/-- The path of the last file-path option of a list, if it has one. -/
def lastPath (opts : List Builtin) : Option String := opts.reverse.findSome? Builtin.path?

/-- The configuration `InitLogger` hands to the options: zap's development
configuration with `OutputPaths` and `DisableStacktrace` overwritten. -/
def baseConfig (newDevelopmentConfig : Config) : Config :=
  { newDevelopmentConfig with OutputPaths := ["stdout"], DisableStacktrace := true }

/-- The value of `zap.NewDevelopmentConfig()` in zap's sources, used in examples. -/
def sampleConfig : Config :=
  { Level := DebugLevel, Development := true, DisableCaller := false,
    DisableStacktrace := false, Encoding := "console", OutputPaths := ["stderr"],
    ErrorOutputPaths := ["stderr"] }

/-- A process at start, with a counter as the state the callbacks act on. -/
def sampleProc : Proc Nat :=
  { user := 0, out := [], ExitOnErr := initExitOnErr, globalL := none }

/-- An implementation of `LogOption` whose `ConfigLogger` fails with the error it
carries, as the interface allows; used in examples. -/
structure FailingOption where
  kind : LogOptionType
  err : GoError
  deriving DecidableEq, Repr

instance : LogOption FailingOption where
  OptType := fun o => o.kind
  ConfigLogger := fun o _ _ => .error o.err

/-- A slice of options may mix implementations of the interface: each element
answers with the methods of its own type. -/
instance {α β : Type} [LogOption α] [LogOption β] : LogOption (α ⊕ β) where
  OptType := fun o =>
    match o with
    | .inl a => LogOption.OptType a
    | .inr b => LogOption.OptType b
  ConfigLogger := fun o bitmap cfg =>
    match o with
    | .inl a => LogOption.ConfigLogger a bitmap cfg
    | .inr b => LogOption.ConfigLogger b bitmap cfg

/-- The error of the examples: `errors.Wrap(errors.Errorf("boom"), "ctx")` with
call stacks `<s1>` and `<s2>`. -/
def sampleError : GoError := Wrap "<s2>" (Errorf "<s1>" "boom") "ctx"

/-- A logger built from `sampleConfig` with the given level. -/
def sampleLogger (lvl : Level) : Logger :=
  { cfg := { sampleConfig with Level := lvl }, addCaller := true, callerSkip := 1 }

/-- A process in which a logger at warn level has been installed. -/
def sampleProcLogging : Proc Nat :=
  { sampleProc with globalL := some (sampleLogger WarnLevel) }

/-- Three options of which the second fails: a log-level option, a failing
option of a kind of its own, and a file-path option. -/
def sampleMixedOptions : List (Builtin ⊕ FailingOption) :=
  [.inl (.logLevelOption WarnLevel), .inr { kind := 8, err := Errorf "" "bad option" },
    .inl (.logFilePathOption "/tmp/eke.log")]

/-! ## Go maps: basic facts -/

theorem mapLookup_mapAssign {κ ν : Type} [DecidableEq κ] (m : List (κ × ν)) (k k' : κ) (v : ν) :
    mapLookup (mapAssign m k v) k' = if k = k' then some v else mapLookup m k' := by
  induction m with
  | nil => simp [mapAssign, mapLookup]
  | cons e rest ih =>
    obtain ⟨a, b⟩ := e
    by_cases h : a = k
    · subst h
      by_cases h' : a = k' <;> simp [mapAssign, mapLookup, h']
    · by_cases h' : a = k'
      · subst h'
        have : ¬ k = a := fun e => h e.symm
        simp [mapAssign, mapLookup, h, this]
      · simp [mapAssign, mapLookup, h, h', ih]

theorem mapKeys_mapAssign {κ ν : Type} [DecidableEq κ] (m : List (κ × ν)) (k : κ) (v : ν) :
    mapKeys (mapAssign m k v) = if k ∈ mapKeys m then mapKeys m else mapKeys m ++ [k] := by
  induction m with
  | nil => simp [mapAssign, mapKeys]
  | cons e rest ih =>
    obtain ⟨a, b⟩ := e
    by_cases h : a = k
    · subst h
      simp [mapAssign, mapKeys]
    · have hk : ¬ k = a := fun e => h e.symm
      simp only [mapKeys] at ih
      by_cases hm : k ∈ rest.map Prod.fst
      · simp [mapAssign, mapKeys, h, hk, hm, ih]
      · simp [mapAssign, mapKeys, h, hk, hm, ih]

theorem mem_mapKeys_iff {κ ν : Type} [DecidableEq κ] (m : List (κ × ν)) (k : κ) :
    k ∈ mapKeys m ↔ (mapLookup m k).isSome = true := by
  induction m with
  | nil => simp [mapKeys, mapLookup]
  | cons e rest ih =>
    obtain ⟨a, b⟩ := e
    simp only [mapKeys] at ih
    by_cases h : a = k
    · simp [mapKeys, mapLookup, h]
    · have hk : ¬ k = a := fun e => h e.symm
      simp [mapKeys, mapLookup, h, hk, ih]

theorem nodup_mapKeys_mapAssign {κ ν : Type} [DecidableEq κ] (m : List (κ × ν)) (k : κ) (v : ν)
    (h : (mapKeys m).Nodup) : (mapKeys (mapAssign m k v)).Nodup := by
  rw [mapKeys_mapAssign]
  split
  · exact h
  · rename_i hk
    exact List.nodup_append.mpr ⟨h, List.nodup_singleton k, by
      intro a ha hb
      simp at hb
      subst hb
      exact hk ha⟩

/-! ## `tidyOptsAndCalBitmap` -/

theorem tidy_eq_foldl {α : Type} [LogOption α] (opts : List α) :
    tidyOptsAndCalBitmap opts = opts.foldl tidyStep ([], 0) := rfl

theorem lookup_foldl_tidyStep {α : Type} [LogOption α] (opts : List α)
    (acc : List (LogOptionType × α) × LogOptionType) (k : LogOptionType) :
    mapLookup (opts.foldl tidyStep acc).1 k =
      ((opts.reverse.find? (fun o => decide (LogOption.OptType o = k))).or
        (mapLookup acc.1 k)) := by
  induction opts generalizing acc with
  | nil => simp
  | cons o rest ih =>
    rw [List.foldl_cons, ih, List.reverse_cons, List.find?_append]
    simp only [tidyStep, mapLookup_mapAssign]
    cases hfind : rest.reverse.find? (fun o => decide (LogOption.OptType o = k)) with
    | some x => simp
    | none =>
      by_cases hk : LogOption.OptType o = k <;> simp [hk]

theorem lookup_tidy {α : Type} [LogOption α] (opts : List α) (k : LogOptionType) :
    mapLookup (tidyOptsAndCalBitmap opts).1 k =
      opts.reverse.find? (fun o => decide (LogOption.OptType o = k)) := by
  rw [tidy_eq_foldl, lookup_foldl_tidyStep]
  simp [mapLookup]

theorem nodup_foldl_tidyStep {α : Type} [LogOption α] (opts : List α)
    (acc : List (LogOptionType × α) × LogOptionType) (h : (mapKeys acc.1).Nodup) :
    (mapKeys (opts.foldl tidyStep acc).1).Nodup := by
  induction opts generalizing acc with
  | nil => simpa using h
  | cons o rest ih =>
    rw [List.foldl_cons]
    exact ih _ (nodup_mapKeys_mapAssign _ _ _ h)

theorem nodup_tidy {α : Type} [LogOption α] (opts : List α) :
    (mapKeys (tidyOptsAndCalBitmap opts).1).Nodup := by
  rw [tidy_eq_foldl]
  exact nodup_foldl_tidyStep opts _ (by simp [mapKeys])

theorem find_reverse_eq_some_iff {α : Type} [LogOption α] (opts : List α) (k : LogOptionType)
    (v : α) :
    opts.reverse.find? (fun o => decide (LogOption.OptType o = k)) = some v ↔
      IsLastOfKind opts k v := by
  rw [List.find?_eq_some]
  constructor
  · rintro ⟨hv, as, bs, hrev, hno⟩
    refine ⟨bs.reverse, as.reverse, ?_, by simpa using hv, ?_⟩
    · have := congrArg List.reverse hrev
      simpa using this
    · intro o ho
      have := hno o (by simpa using ho)
      simpa using this
  · rintro ⟨pre, post, hsplit, hv, hno⟩
    refine ⟨by simpa using hv, post.reverse, pre.reverse, ?_, ?_⟩
    · subst hsplit
      simp
    · intro o ho
      have := hno o (by simpa using ho)
      simpa using this

/-- Claim C1.  For every list of options, over any implementation of the interface
`LogOption`: the keys of the map returned by `tidyOptsAndCalBitmap` are pairwise
distinct and are exactly the kinds `OptType()` occurring in the list, and the
value stored under a kind `k` is the last element of the list whose kind is `k`. -/
theorem tidy_last_wins {α : Type} [LogOption α] (opts : List α) :
    (mapKeys (tidyOptsAndCalBitmap opts).1).Nodup ∧
    (∀ k, k ∈ mapKeys (tidyOptsAndCalBitmap opts).1 ↔ ∃ o ∈ opts, LogOption.OptType o = k) ∧
    (∀ k v, mapLookup (tidyOptsAndCalBitmap opts).1 k = some v ↔ IsLastOfKind opts k v) := by
  refine ⟨nodup_tidy opts, ?_, ?_⟩
  · intro k
    rw [mem_mapKeys_iff, lookup_tidy, List.find?_isSome]
    simp
  · intro k v
    rw [lookup_tidy, find_reverse_eq_some_iff]

theorem orAll_append (xs ys : List LogOptionType) :
    orAll (xs ++ ys) = orAll xs ||| orAll ys := by
  induction xs with
  | nil => simp [orAll]
  | cons x rest ih =>
    simp only [orAll] at ih
    simp [orAll, ih, Nat.lor_assoc]

theorem orAll_absorb (xs : List LogOptionType) (k : LogOptionType) (h : k ∈ xs) :
    orAll xs ||| k = orAll xs := by
  induction xs with
  | nil => simp at h
  | cons x rest ih =>
    simp only [orAll] at ih
    rcases List.mem_cons.mp h with hx | hr
    · subst hx
      simp only [orAll, List.foldr_cons]
      rw [Nat.lor_comm, ← Nat.lor_assoc, Nat.or_self]
    · simp only [orAll, List.foldr_cons]
      rw [Nat.lor_assoc, ih hr]

theorem orAll_mapKeys_mapAssign {ν : Type} (m : List (LogOptionType × ν)) (k : LogOptionType)
    (v : ν) : orAll (mapKeys (mapAssign m k v)) = orAll (mapKeys m) ||| k := by
  rw [mapKeys_mapAssign]
  split
  · rename_i h
    exact (orAll_absorb _ _ h).symm
  · rw [orAll_append]
    simp [orAll]

theorem bitmap_foldl_tidyStep {α : Type} [LogOption α] (opts : List α)
    (acc : List (LogOptionType × α) × LogOptionType) :
    (opts.foldl tidyStep acc).2 = acc.2 ||| orAll (opts.map LogOption.OptType) ∧
    orAll (mapKeys (opts.foldl tidyStep acc).1) =
      orAll (mapKeys acc.1) ||| orAll (opts.map LogOption.OptType) := by
  induction opts generalizing acc with
  | nil => simp [orAll]
  | cons o rest ih =>
    rw [List.foldl_cons]
    obtain ⟨h1, h2⟩ := ih (tidyStep acc o)
    rw [h1, h2]
    simp only [tidyStep, orAll_mapKeys_mapAssign]
    simp [orAll, Nat.lor_assoc]

theorem bitmap_tidy {α : Type} [LogOption α] (opts : List α) :
    (tidyOptsAndCalBitmap opts).2 = orAll (opts.map LogOption.OptType) := by
  have h := (bitmap_foldl_tidyStep opts (([], 0) : List (LogOptionType × α) × LogOptionType)).1
  rw [← tidy_eq_foldl] at h
  simpa using h

/-- Claim C2.  For every list of options the bitmap returned by
`tidyOptsAndCalBitmap` is the bitwise OR of `OptType()` over all elements of the
list, which is also the bitwise OR of the keys of the returned map; for the
empty list the map is empty and the bitmap is 0. -/
theorem tidy_bitmap {α : Type} [LogOption α] (opts : List α) :
    (tidyOptsAndCalBitmap opts).2 = orAll (opts.map LogOption.OptType) ∧
    (tidyOptsAndCalBitmap opts).2 = orAll (mapKeys (tidyOptsAndCalBitmap opts).1) ∧
    tidyOptsAndCalBitmap ([] : List α) = ([], 0) := by
  obtain ⟨h1, h2⟩ := bitmap_foldl_tidyStep opts (([], 0) : List (LogOptionType × α) × LogOptionType)
  rw [← tidy_eq_foldl] at h1 h2
  refine ⟨by simpa using h1, ?_, rfl⟩
  rw [h2, h1]
  simp [mapKeys, orAll]

/-! ## The built-in options -/

theorem optType_builtin (o : Builtin) : LogOption.OptType o = Builtin.OptType o := rfl

theorem configLogger_builtin (o : Builtin) (b : LogOptionType) (cfg : Config) :
    LogOption.ConfigLogger o b cfg = Builtin.ConfigLogger o b cfg := rfl

theorem mapLookup_eq_some_iff {κ ν : Type} [DecidableEq κ] (m : List (κ × ν))
    (nd : (mapKeys m).Nodup) (k : κ) (v : ν) : mapLookup m k = some v ↔ (k, v) ∈ m := by
  induction m with
  | nil => simp [mapLookup]
  | cons e rest ih =>
    obtain ⟨a, b⟩ := e
    simp only [mapKeys, List.map_cons, List.nodup_cons] at nd
    have ih := ih nd.2
    by_cases h : a = k
    · subst h
      simp only [mapLookup, if_true, List.mem_cons, Prod.mk.injEq, true_and, Option.some.injEq]
      constructor
      · intro hv
        exact Or.inl hv.symm
      · rintro (hv | hmem)
        · exact hv.symm
        · exact absurd (List.mem_map_of_mem Prod.fst hmem) nd.1
    · have hk : ¬ k = a := fun e => h e.symm
      simp [mapLookup, h, hk, ih]

theorem mapLookup_perm {κ ν : Type} [DecidableEq κ] (m m' : List (κ × ν))
    (nd : (mapKeys m).Nodup) (hp : m'.Perm m) (k : κ) : mapLookup m' k = mapLookup m k := by
  have nd' : (mapKeys m').Nodup := ((hp.map Prod.fst).nodup_iff).mpr nd
  apply Option.ext
  intro v
  simp only [Option.mem_def]
  rw [mapLookup_eq_some_iff m' nd', mapLookup_eq_some_iff m nd]
  exact hp.mem_iff

theorem mapLookup_eq_none_of_not_mem {κ ν : Type} [DecidableEq κ] (m : List (κ × ν)) (k : κ)
    (h : k ∉ mapKeys m) : mapLookup m k = none := by
  rw [mem_mapKeys_iff] at h
  simpa using h

theorem tidy_entry_kind {α : Type} [LogOption α] (opts : List α) (e : LogOptionType × α)
    (he : e ∈ (tidyOptsAndCalBitmap opts).1) : e.1 = LogOption.OptType e.2 := by
  obtain ⟨k, v⟩ := e
  have h := (mapLookup_eq_some_iff _ (nodup_tidy opts) k v).mpr he
  rw [lookup_tidy, find_reverse_eq_some_iff] at h
  obtain ⟨_, _, _, hv, _⟩ := h
  exact hv.symm

/-- The configuration the loop of `InitLogger` produces from a map of built-in
options, read off the map: the level of the entry under `LogLevelOpt`, and the
path of the entry under `LogFilePathOpt` appended when both bits are set. -/
theorem applyOptions_builtin (b : LogOptionType) (ord : List (LogOptionType × Builtin))
    (cfg : Config) (hk : ∀ e ∈ ord, e.1 = LogOption.OptType e.2) (nd : (mapKeys ord).Nodup) :
    applyOptions b ord cfg = .ok { cfg with
      Level := ((mapLookup ord LogLevelOpt).bind Builtin.level?).getD cfg.Level,
      OutputPaths := cfg.OutputPaths ++
        (if b &&& (EnableLogFileOpt ||| LogFilePathOpt) = EnableLogFileOpt ||| LogFilePathOpt
         then ((mapLookup ord LogFilePathOpt).bind Builtin.path?).toList else []) } := by
  induction ord generalizing cfg with
  | nil => simp [applyOptions, mapLookup]
  | cons e rest ih =>
    obtain ⟨k, v⟩ := e
    have hkv : k = Builtin.OptType v := hk (k, v) (List.mem_cons_self _ _)
    simp only [mapKeys, List.map_cons, List.nodup_cons] at nd
    have ih := fun c => ih c (fun e he => hk e (List.mem_cons_of_mem _ he)) nd.2
    have hnone : mapLookup rest k = none := mapLookup_eq_none_of_not_mem rest k nd.1
    subst hkv
    cases v with
    | logLevelOption l =>
      simp only [Builtin.OptType] at hnone
      have h14 : ¬ LogLevelOpt = LogFilePathOpt := by decide
      simp [applyOptions, configLogger_builtin, Builtin.ConfigLogger, ih, mapLookup,
        Builtin.OptType, hnone, h14, Builtin.level?]
    | enableLogFileOption =>
      have h21 : ¬ EnableLogFileOpt = LogLevelOpt := by decide
      have h24 : ¬ EnableLogFileOpt = LogFilePathOpt := by decide
      simp [applyOptions, configLogger_builtin, Builtin.ConfigLogger, ih, mapLookup,
        Builtin.OptType, h21, h24]
    | logFilePathOption q =>
      simp only [Builtin.OptType] at hnone
      have h41 : ¬ LogFilePathOpt = LogLevelOpt := by decide
      by_cases hb : b &&& (EnableLogFileOpt ||| LogFilePathOpt) = EnableLogFileOpt ||| LogFilePathOpt
      · simp [applyOptions, configLogger_builtin, Builtin.ConfigLogger, ih, mapLookup,
          Builtin.OptType, hnone, h41, Builtin.path?, hb]
      · simp [applyOptions, configLogger_builtin, Builtin.ConfigLogger, ih, mapLookup,
          Builtin.OptType, hnone, h41, Builtin.path?, hb]

theorem find_level_bind (l : List Builtin) :
    (l.find? (fun o => decide (LogOption.OptType o = LogLevelOpt))).bind Builtin.level? =
      l.findSome? Builtin.level? := by
  induction l with
  | nil => rfl
  | cons o rest ih =>
    cases o with
    | logLevelOption lv =>
      simp [List.find?_cons, optType_builtin, Builtin.OptType, Builtin.level?]
    | enableLogFileOption =>
      have h : ¬ EnableLogFileOpt = LogLevelOpt := by decide
      simpa [List.find?_cons, optType_builtin, Builtin.OptType, Builtin.level?, h] using ih
    | logFilePathOption q =>
      have h : ¬ LogFilePathOpt = LogLevelOpt := by decide
      simpa [List.find?_cons, optType_builtin, Builtin.OptType, Builtin.level?, h] using ih

theorem find_path_bind (l : List Builtin) :
    (l.find? (fun o => decide (LogOption.OptType o = LogFilePathOpt))).bind Builtin.path? =
      l.findSome? Builtin.path? := by
  induction l with
  | nil => rfl
  | cons o rest ih =>
    cases o with
    | logLevelOption lv =>
      have h : ¬ LogLevelOpt = LogFilePathOpt := by decide
      simpa [List.find?_cons, optType_builtin, Builtin.OptType, Builtin.path?, h] using ih
    | enableLogFileOption =>
      have h : ¬ EnableLogFileOpt = LogFilePathOpt := by decide
      simpa [List.find?_cons, optType_builtin, Builtin.OptType, Builtin.path?, h] using ih
    | logFilePathOption q =>
      simp [List.find?_cons, optType_builtin, Builtin.OptType, Builtin.path?]

theorem tidy_level (opts : List Builtin) :
    (mapLookup (tidyOptsAndCalBitmap opts).1 LogLevelOpt).bind Builtin.level? = lastLevel opts := by
  rw [lookup_tidy, find_level_bind, lastLevel]

theorem tidy_path (opts : List Builtin) :
    (mapLookup (tidyOptsAndCalBitmap opts).1 LogFilePathOpt).bind Builtin.path? =
      lastPath opts := by
  rw [lookup_tidy, find_path_bind, lastPath]

theorem lastPath_eq_none_iff (opts : List Builtin) :
    lastPath opts = none ↔ ∀ q, Builtin.logFilePathOption q ∉ opts := by
  simp only [lastPath, List.findSome?_eq_none_iff, List.mem_reverse]
  constructor
  · intro h q hq
    have := h _ hq
    simp [Builtin.path?] at this
  · intro h x hx
    cases x with
    | logFilePathOption q => exact absurd hx (h q)
    | logLevelOption lv => rfl
    | enableLogFileOption => rfl

/-- The bitmap of a list of built-in options has one bit per kind present. -/
theorem orAll_builtin (opts : List Builtin) :
    ∃ a b c : Bool,
      orAll (opts.map LogOption.OptType) =
        ((if a then 1 else 0) ||| (if b then 2 else 0) ||| (if c then 4 else 0)) ∧
      (b = true ↔ Builtin.enableLogFileOption ∈ opts) ∧
      (c = true ↔ ∃ q, Builtin.logFilePathOption q ∈ opts) := by
  induction opts with
  | nil => exact ⟨false, false, false, by simp [orAll], by simp, by simp⟩
  | cons o rest ih =>
    obtain ⟨a, b, c, hor, hb, hc⟩ := ih
    simp only [orAll] at hor
    cases o with
    | logLevelOption lv =>
      refine ⟨true, b, c, ?_, by simpa using hb, by simpa using hc⟩
      simp only [orAll, List.map_cons, List.foldr_cons, hor, optType_builtin, Builtin.OptType]
      cases a <;> cases b <;> cases c <;> decide
    | enableLogFileOption =>
      refine ⟨a, true, c, ?_, by simp, by simpa using hc⟩
      simp only [orAll, List.map_cons, List.foldr_cons, hor, optType_builtin, Builtin.OptType]
      cases a <;> cases b <;> cases c <;> decide
    | logFilePathOption q =>
      refine ⟨a, b, true, ?_, by simpa using hb, by simp⟩
      simp only [orAll, List.map_cons, List.foldr_cons, hor, optType_builtin, Builtin.OptType]
      cases a <;> cases b <;> cases c <;> decide

/-- The test `(opts & enable) == enable` of `logFilePathOption.ConfigLogger`
succeeds on the bitmap of a list exactly when the list has an enable-log-file
option and a file-path option. -/
theorem enable_bits_iff (opts : List Builtin) :
    (tidyOptsAndCalBitmap opts).2 &&& (EnableLogFileOpt ||| LogFilePathOpt) =
        EnableLogFileOpt ||| LogFilePathOpt ↔
      Builtin.enableLogFileOption ∈ opts ∧ ∃ q, Builtin.logFilePathOption q ∈ opts := by
  rw [bitmap_tidy opts]
  obtain ⟨a, b, c, hor, hb, hc⟩ := orAll_builtin opts
  rw [hor, ← hb, ← hc]
  cases a <;> cases b <;> cases c <;> decide

/-- The configuration the loop of `InitLogger` reaches on the options of a list
of built-in options, whatever the order in which the map is visited. -/
theorem applyOptions_tidy (opts : List Builtin) (ord : List (LogOptionType × Builtin))
    (hp : ord.Perm (tidyOptsAndCalBitmap opts).1) (cfg : Config) :
    applyOptions (tidyOptsAndCalBitmap opts).2 ord cfg = .ok { cfg with
      Level := (lastLevel opts).getD cfg.Level,
      OutputPaths := cfg.OutputPaths ++
        (if (tidyOptsAndCalBitmap opts).2 &&& (EnableLogFileOpt ||| LogFilePathOpt) =
            EnableLogFileOpt ||| LogFilePathOpt
         then (lastPath opts).toList else []) } := by
  have nd : (mapKeys ord).Nodup := ((hp.map Prod.fst).nodup_iff).mpr (nodup_tidy opts)
  have hk : ∀ e ∈ ord, e.1 = LogOption.OptType e.2 :=
    fun e he => tidy_entry_kind opts e (hp.mem_iff.mp he)
  rw [applyOptions_builtin _ ord cfg hk nd, mapLookup_perm _ ord (nodup_tidy opts) hp,
    mapLookup_perm _ ord (nodup_tidy opts) hp, tidy_level, tidy_path]

/-! ## `InitLogger` on the built-in options -/

theorem initLogger_eq {α σ : Type} [LogOption α] (now stack : String) (ndc : Config)
    (buildErr : Config → Option GoError)
    (visit : List (LogOptionType × α) → List (LogOptionType × α))
    (options : List α) (p : Proc σ) :
    InitLogger now stack ndc buildErr visit options p =
      match applyOptions (tidyOptsAndCalBitmap options).2
          (visit (tidyOptsAndCalBitmap options).1) (baseConfig ndc) with
      | .error err =>
        (.error (Wrap stack err "failed to apply options"),
          p.print (utilsPrintln now "start to init log system."))
      | .ok cfg =>
        buildLogger stack buildErr cfg (p.print (utilsPrintln now "start to init log system.")) := by
  unfold InitLogger
  rcases h : tidyOptsAndCalBitmap options with ⟨m, b⟩
  rfl

theorem buildLogger_ok {σ : Type} (stack : String) (buildErr : Config → Option GoError)
    (cfg : Config) (p : Proc σ) (h : buildErr cfg = none) :
    ∃ undo p', buildLogger stack buildErr cfg p = (.ok (undo, cfg), p') ∧
      p'.globalL = some { cfg := cfg, addCaller := true, callerSkip := 1 } := by
  refine ⟨fun q => { q with globalL := p.globalL },
    { p with globalL := some { cfg := cfg, addCaller := true, callerSkip := 1 } }, ?_, rfl⟩
  simp [buildLogger, h, ReplaceGlobals]

/-- What `InitLogger` does on built-in options: the loop over the options never
fails, so the call is `cfg.Build` and `zap.ReplaceGlobals` on the configuration
determined by the last log-level option, the last file-path option and the
presence of an enable-log-file option. -/
theorem initLogger_builtin {σ : Type} (now stack : String) (ndc : Config)
    (buildErr : Config → Option GoError)
    (visit : List (LogOptionType × Builtin) → List (LogOptionType × Builtin))
    (options : List Builtin) (p : Proc σ)
    (hvisit : (visit (tidyOptsAndCalBitmap options).1).Perm (tidyOptsAndCalBitmap options).1) :
    InitLogger now stack ndc buildErr visit options p =
      buildLogger stack buildErr
        { baseConfig ndc with
          Level := (lastLevel options).getD ndc.Level,
          OutputPaths := ["stdout"] ++
            (if (tidyOptsAndCalBitmap options).2 &&& (EnableLogFileOpt ||| LogFilePathOpt) =
                EnableLogFileOpt ||| LogFilePathOpt
             then (lastPath options).toList else []) }
        (p.print (utilsPrintln now "start to init log system.")) := by
  rw [initLogger_eq, applyOptions_tidy options _ hvisit]
  rfl

/-- Claim C3.  When the options passed to `InitLogger` contain a log-level option,
however interleaved with other options and in whatever order the map is visited,
the loop over the options succeeds with a configuration `cfg` whose level is the
level `l` of the last log-level option, so that a record at level `m` is enabled
exactly when `m ≥ l`; `InitLogger` is then `cfg.Build` and `ReplaceGlobals` on
that configuration, and returns it whenever `cfg.Build` succeeds. -/
theorem initLogger_last_level {σ : Type} (now stack : String) (ndc : Config)
    (buildErr : Config → Option GoError)
    (visit : List (LogOptionType × Builtin) → List (LogOptionType × Builtin))
    (options : List Builtin) (p : Proc σ) (l : Level)
    (hvisit : (visit (tidyOptsAndCalBitmap options).1).Perm (tidyOptsAndCalBitmap options).1)
    (hl : lastLevel options = some l) :
    ∃ cfg : Config,
      applyOptions (tidyOptsAndCalBitmap options).2 (visit (tidyOptsAndCalBitmap options).1)
        (baseConfig ndc) = .ok cfg ∧
      cfg.Level = l ∧
      (∀ m : Level, Level.Enabled cfg.Level m = true ↔ m ≥ l) ∧
      InitLogger now stack ndc buildErr visit options p =
        buildLogger stack buildErr cfg (p.print (utilsPrintln now "start to init log system.")) ∧
      (buildErr cfg = none →
        ∃ undo p', InitLogger now stack ndc buildErr visit options p = (.ok (undo, cfg), p') ∧
          p'.globalL = some { cfg := cfg, addCaller := true, callerSkip := 1 }) := by
  refine ⟨_, applyOptions_tidy options _ hvisit _, ?_, ?_, ?_, ?_⟩
  · simp [hl]
  · intro m
    simp [hl, Level.Enabled]
  · rw [initLogger_builtin now stack ndc buildErr visit options p hvisit]
    rfl
  · intro hb
    rw [initLogger_builtin now stack ndc buildErr visit options p hvisit]
    exact buildLogger_ok stack buildErr _ _ hb

/-- Claim C3 on the options of `TestMultiLogLevel` (debug, info, warn), with the
map visited in reverse: the level is warn, so info and debug records are
disabled and warn records are enabled. -/
theorem initLogger_last_level_witness :
    ∃ cfg : Config,
      cfg.Level = WarnLevel ∧
      Level.Enabled cfg.Level InfoLevel = false ∧
      Level.Enabled cfg.Level DebugLevel = false ∧
      Level.Enabled cfg.Level WarnLevel = true ∧
      ∃ undo p', InitLogger "t" "" sampleConfig (fun _ => none) List.reverse
        [Builtin.logLevelOption DebugLevel, Builtin.logLevelOption InfoLevel,
          Builtin.logLevelOption WarnLevel] sampleProc = (.ok (undo, cfg), p') := by
  obtain ⟨cfg, _, hlevel, _, _, hok⟩ :=
    initLogger_last_level "t" "" sampleConfig (fun _ => none) List.reverse
      [Builtin.logLevelOption DebugLevel, Builtin.logLevelOption InfoLevel,
        Builtin.logLevelOption WarnLevel] sampleProc WarnLevel (List.reverse_perm _) (by decide)
  obtain ⟨undo, p', h, _⟩ := hok rfl
  refine ⟨cfg, hlevel, ?_, ?_, ?_, undo, p', h⟩ <;> rw [hlevel] <;> decide

/-- Claim C4.  When the options passed to `InitLogger` contain an enable-log-file
option and a file-path option, in any positions and in whatever order the map is
visited, the loop over the options succeeds with a configuration `cfg` whose
`OutputPaths` is `["stdout", q]`, `q` being the path of the last file-path
option; `InitLogger` is then `cfg.Build` and `ReplaceGlobals` on that
configuration, and returns it whenever `cfg.Build` succeeds. -/
theorem initLogger_output_paths_enabled {σ : Type} (now stack : String) (ndc : Config)
    (buildErr : Config → Option GoError)
    (visit : List (LogOptionType × Builtin) → List (LogOptionType × Builtin))
    (options : List Builtin) (p : Proc σ) (q : String)
    (hvisit : (visit (tidyOptsAndCalBitmap options).1).Perm (tidyOptsAndCalBitmap options).1)
    (he : Builtin.enableLogFileOption ∈ options)
    (hq : lastPath options = some q) :
    ∃ cfg : Config,
      applyOptions (tidyOptsAndCalBitmap options).2 (visit (tidyOptsAndCalBitmap options).1)
        (baseConfig ndc) = .ok cfg ∧
      cfg.OutputPaths = ["stdout", q] ∧
      InitLogger now stack ndc buildErr visit options p =
        buildLogger stack buildErr cfg (p.print (utilsPrintln now "start to init log system.")) ∧
      (buildErr cfg = none →
        ∃ undo p', InitLogger now stack ndc buildErr visit options p = (.ok (undo, cfg), p') ∧
          p'.globalL = some { cfg := cfg, addCaller := true, callerSkip := 1 }) := by
  have hbits : (tidyOptsAndCalBitmap options).2 &&& (EnableLogFileOpt ||| LogFilePathOpt) =
      EnableLogFileOpt ||| LogFilePathOpt := by
    rw [enable_bits_iff]
    refine ⟨he, ?_⟩
    by_contra hno
    have hnone : lastPath options = none :=
      (lastPath_eq_none_iff options).mpr (fun q' hq' => hno ⟨q', hq'⟩)
    rw [hq] at hnone
    cases hnone
  refine ⟨_, applyOptions_tidy options _ hvisit _, ?_, ?_, ?_⟩
  · simp [hbits, hq, baseConfig]
  · rw [initLogger_builtin now stack ndc buildErr visit options p hvisit]
    rfl
  · intro hb
    rw [initLogger_builtin now stack ndc buildErr visit options p hvisit]
    exact buildLogger_ok stack buildErr _ _ hb

/-- Claim C4 on the options of `TestMultiOutputPath` (enable, path A, path B),
with the map visited in reverse: only the second path follows `stdout`. -/
theorem initLogger_output_paths_enabled_witness :
    ∃ cfg : Config,
      cfg.OutputPaths = ["stdout", "/var/log/eke.log"] ∧
      ∃ undo p', InitLogger "t" "" sampleConfig (fun _ => none) List.reverse
        [Builtin.enableLogFileOption, Builtin.logFilePathOption "/tmp/eke.log",
          Builtin.logFilePathOption "/var/log/eke.log"] sampleProc = (.ok (undo, cfg), p') := by
  obtain ⟨cfg, _, hpaths, _, hok⟩ :=
    initLogger_output_paths_enabled "t" "" sampleConfig (fun _ => none) List.reverse
      [Builtin.enableLogFileOption, Builtin.logFilePathOption "/tmp/eke.log",
        Builtin.logFilePathOption "/var/log/eke.log"] sampleProc "/var/log/eke.log"
      (List.reverse_perm _) (by decide) (by decide)
  obtain ⟨undo, p', h, _⟩ := hok rfl
  exact ⟨cfg, hpaths, undo, p', h⟩

/-- Claim C5.  When the options passed to `InitLogger` lack an enable-log-file
option or lack a file-path option (so also for the empty list and for lists of
one kind only), in whatever order the map is visited, the loop over the options
succeeds with a configuration `cfg` whose `OutputPaths` is `["stdout"]`;
`InitLogger` is then `cfg.Build` and `ReplaceGlobals` on that configuration, and
returns it whenever `cfg.Build` succeeds. -/
theorem initLogger_output_paths_base {σ : Type} (now stack : String) (ndc : Config)
    (buildErr : Config → Option GoError)
    (visit : List (LogOptionType × Builtin) → List (LogOptionType × Builtin))
    (options : List Builtin) (p : Proc σ)
    (hvisit : (visit (tidyOptsAndCalBitmap options).1).Perm (tidyOptsAndCalBitmap options).1)
    (hlack : Builtin.enableLogFileOption ∉ options ∨
      ∀ q, Builtin.logFilePathOption q ∉ options) :
    ∃ cfg : Config,
      applyOptions (tidyOptsAndCalBitmap options).2 (visit (tidyOptsAndCalBitmap options).1)
        (baseConfig ndc) = .ok cfg ∧
      cfg.OutputPaths = ["stdout"] ∧
      InitLogger now stack ndc buildErr visit options p =
        buildLogger stack buildErr cfg (p.print (utilsPrintln now "start to init log system.")) ∧
      (buildErr cfg = none →
        ∃ undo p', InitLogger now stack ndc buildErr visit options p = (.ok (undo, cfg), p') ∧
          p'.globalL = some { cfg := cfg, addCaller := true, callerSkip := 1 }) := by
  have hbits : ¬ ((tidyOptsAndCalBitmap options).2 &&& (EnableLogFileOpt ||| LogFilePathOpt) =
      EnableLogFileOpt ||| LogFilePathOpt) := by
    rw [enable_bits_iff]
    rintro ⟨he, q, hq⟩
    rcases hlack with h | h
    · exact h he
    · exact h q hq
  refine ⟨_, applyOptions_tidy options _ hvisit _, ?_, ?_, ?_⟩
  · simp [hbits, baseConfig]
  · rw [initLogger_builtin now stack ndc buildErr visit options p hvisit]
    rfl
  · intro hb
    rw [initLogger_builtin now stack ndc buildErr visit options p hvisit]
    exact buildLogger_ok stack buildErr _ _ hb

/-- Claim C5 on a file-path option and a log-level option without an
enable-log-file option, with the map visited in reverse: only `stdout`. -/
theorem initLogger_output_paths_base_witness :
    ∃ cfg : Config,
      cfg.OutputPaths = ["stdout"] ∧
      ∃ undo p', InitLogger "t" "" sampleConfig (fun _ => none) List.reverse
        [Builtin.logFilePathOption "/tmp/eke.log", Builtin.logLevelOption WarnLevel]
        sampleProc = (.ok (undo, cfg), p') := by
  obtain ⟨cfg, _, hpaths, _, hok⟩ :=
    initLogger_output_paths_base "t" "" sampleConfig (fun _ => none) List.reverse
      [Builtin.logFilePathOption "/tmp/eke.log", Builtin.logLevelOption WarnLevel]
      sampleProc (List.reverse_perm _) (Or.inl (by decide))
  obtain ⟨undo, p', h, _⟩ := hok rfl
  exact ⟨cfg, hpaths, undo, p', h⟩

/-- Claim C6.  For the map and bitmap `tidyOptsAndCalBitmap` produces from a list
of built-in options, applying the surviving options' `ConfigLogger(bitmap, cfg)`
to a configuration in any two orders (any two permutations of the entries of the
map) succeeds with one and the same configuration, hence the same level and the
same `OutputPaths`. -/
theorem applyOptions_order_irrelevant (options : List Builtin)
    (ord₁ ord₂ : List (LogOptionType × Builtin)) (cfg : Config)
    (h₁ : ord₁.Perm (tidyOptsAndCalBitmap options).1)
    (h₂ : ord₂.Perm (tidyOptsAndCalBitmap options).1) :
    ∃ c : Config,
      applyOptions (tidyOptsAndCalBitmap options).2 ord₁ cfg = .ok c ∧
      applyOptions (tidyOptsAndCalBitmap options).2 ord₂ cfg = .ok c :=
  ⟨_, applyOptions_tidy options ord₁ h₁ cfg, applyOptions_tidy options ord₂ h₂ cfg⟩

/-- Claim C6 on a log-level, an enable-log-file and a file-path option: visiting
the map in insertion order and in reverse gives the same configuration. -/
theorem applyOptions_order_irrelevant_witness :
    ∃ c : Config,
      applyOptions 7
        [(1, Builtin.logLevelOption WarnLevel), (2, Builtin.enableLogFileOption),
          (4, Builtin.logFilePathOption "/tmp/eke.log")] (baseConfig sampleConfig) = .ok c ∧
      applyOptions 7
        [(4, Builtin.logFilePathOption "/tmp/eke.log"), (2, Builtin.enableLogFileOption),
          (1, Builtin.logLevelOption WarnLevel)] (baseConfig sampleConfig) = .ok c :=
  applyOptions_order_irrelevant
    [Builtin.logLevelOption WarnLevel, Builtin.enableLogFileOption,
      Builtin.logFilePathOption "/tmp/eke.log"] _ _ (baseConfig sampleConfig)
    (by decide) (by decide)

/-! ## `NewLogLevelOption` -/

/-- Claim C7.  `NewLogLevelOption(lvl)` returns a log-level option and no error
exactly when `lvl` is one of "debug", "info", "warn", "error", "panic"; the
option then carries the level of that name and has kind `LogLevelOpt`.  For any
other string it returns no option and an error. -/
theorem newLogLevelOption_spec (visit : List String → List String) (stack lvl : String) :
    (∀ l : Level,
      (lvl, l) ∈ [("debug", DebugLevel), ("info", InfoLevel), ("warn", WarnLevel),
        ("error", ErrorLevel), ("panic", PanicLevel)] →
      NewLogLevelOption visit stack lvl = .ok (.logLevelOption l) ∧
      LogOption.OptType (Builtin.logLevelOption l) = LogLevelOpt) ∧
    ((∃ o, NewLogLevelOption visit stack lvl = .ok o) ↔
      lvl ∈ ["debug", "info", "warn", "error", "panic"]) ∧
    (lvl ∉ ["debug", "info", "warn", "error", "panic"] →
      ∃ e, NewLogLevelOption visit stack lvl = .error e) := by
  refine ⟨?_, ?_, ?_⟩
  · intro l hl
    simp only [List.mem_cons, Prod.mk.injEq, List.mem_singleton, List.not_mem_nil,
      or_false] at hl
    rcases hl with ⟨h, rfl⟩ | ⟨h, rfl⟩ | ⟨h, rfl⟩ | ⟨h, rfl⟩ | ⟨h, rfl⟩ <;> subst h <;>
      exact ⟨rfl, rfl⟩
  · simp only [NewLogLevelOption, logLevelMap, mapLookup, List.mem_cons, List.mem_singleton,
      List.not_mem_nil, or_false]
    by_cases h1 : "debug" = lvl
    · simp [h1.symm]
    by_cases h2 : "info" = lvl
    · simp [h2.symm]
    by_cases h3 : "warn" = lvl
    · simp [h3.symm]
    by_cases h4 : "error" = lvl
    · simp [h4.symm]
    by_cases h5 : "panic" = lvl
    · simp [h5.symm]
    simp [h1, h2, h3, h4, h5, Ne.symm h1, Ne.symm h2, Ne.symm h3, Ne.symm h4, Ne.symm h5]
  · intro hnot
    simp only [List.mem_cons, List.mem_singleton, List.not_mem_nil, or_false, not_or] at hnot
    obtain ⟨h1, h2, h3, h4, h5⟩ := hnot
    simp [NewLogLevelOption, logLevelMap, mapLookup, Ne.symm h1, Ne.symm h2, Ne.symm h3,
      Ne.symm h4, Ne.symm h5]

/-- Claim C7 on concrete strings: "warn" gives the warn option of kind
`LogLevelOpt`; the empty string and the spelling "Warn" give an error. -/
theorem newLogLevelOption_spec_witness :
    (NewLogLevelOption id "" "warn" = .ok (.logLevelOption WarnLevel) ∧
      LogOption.OptType (Builtin.logLevelOption WarnLevel) = LogLevelOpt) ∧
    (∃ e, NewLogLevelOption id "" "" = .error e) ∧
    (∃ e, NewLogLevelOption id "" "Warn" = .error e) :=
  ⟨(newLogLevelOption_spec id "" "warn").1 WarnLevel (by decide),
    (newLogLevelOption_spec id "" "").2.2 (by decide),
    (newLogLevelOption_spec id "" "Warn").2.2 (by decide)⟩

/-! ## `UpdateErrHandling` and the exit handlers -/

/-- Claim C8.  `UpdateErrHandling(t)` returns `nil` and makes `ExitOnErr` the
handler registered under `t` when `t` is "simple" (`simpleExitOnErr`) or
"detail" (`detailExitOnErr`); for any other `t` it returns an error and
`ExitOnErr` is the handler it was before, so that a later call of `ExitOnErr`
behaves as it would have before.  The state the callbacks act on and the global
logger are untouched in every case. -/
theorem updateErrHandling_spec {σ : Type} (now₁ now₂ stack : String)
    (visit : List String → List String) (t : String) (p : Proc σ) :
    (t = "simple" →
      (UpdateErrHandling now₁ now₂ stack visit t p).1 = none ∧
      (UpdateErrHandling now₁ now₂ stack visit t p).2.ExitOnErr = HandleErr.simple ∧
      ∀ now err cbs (q : Proc σ),
        (UpdateErrHandling now₁ now₂ stack visit t p).2.ExitOnErr.call now err cbs q =
          simpleExitOnErr now err cbs q) ∧
    (t = "detail" →
      (UpdateErrHandling now₁ now₂ stack visit t p).1 = none ∧
      (UpdateErrHandling now₁ now₂ stack visit t p).2.ExitOnErr = HandleErr.detail ∧
      ∀ now err cbs (q : Proc σ),
        (UpdateErrHandling now₁ now₂ stack visit t p).2.ExitOnErr.call now err cbs q =
          detailExitOnErr now err cbs q) ∧
    (t ≠ "simple" → t ≠ "detail" →
      (∃ e, (UpdateErrHandling now₁ now₂ stack visit t p).1 = some e) ∧
      (UpdateErrHandling now₁ now₂ stack visit t p).2.ExitOnErr = p.ExitOnErr ∧
      ∀ now err cbs (q : Proc σ),
        (UpdateErrHandling now₁ now₂ stack visit t p).2.ExitOnErr.call now err cbs q =
          p.ExitOnErr.call now err cbs q) ∧
    (UpdateErrHandling now₁ now₂ stack visit t p).2.user = p.user ∧
    (UpdateErrHandling now₁ now₂ stack visit t p).2.globalL = p.globalL := by
  by_cases h1 : "simple" = t
  · subst h1
    simp [UpdateErrHandling, exitOnErrMap, mapLookup, Proc.print, HandleErr.call]
  by_cases h2 : "detail" = t
  · subst h2
    simp [UpdateErrHandling, exitOnErrMap, mapLookup, Proc.print, HandleErr.call]
  simp [UpdateErrHandling, exitOnErrMap, mapLookup, Proc.print, h1, h2, Ne.symm h1, Ne.symm h2]

/-- Claim C8 on concrete names, from the state at process start (handler
`detailExitOnErr`): "simple" installs `simpleExitOnErr`, and "bogus" returns an
error and leaves `detailExitOnErr` in place. -/
theorem updateErrHandling_spec_witness :
    ((UpdateErrHandling "a" "b" "" id "simple" sampleProc).1 = none ∧
      (UpdateErrHandling "a" "b" "" id "simple" sampleProc).2.ExitOnErr = HandleErr.simple) ∧
    ((∃ e, (UpdateErrHandling "a" "b" "" id "bogus" sampleProc).1 = some e) ∧
      (UpdateErrHandling "a" "b" "" id "bogus" sampleProc).2.ExitOnErr = HandleErr.detail) :=
  ⟨⟨((updateErrHandling_spec "a" "b" "" id "simple" sampleProc).1 rfl).1,
      ((updateErrHandling_spec "a" "b" "" id "simple" sampleProc).1 rfl).2.1⟩,
    ⟨((updateErrHandling_spec "a" "b" "" id "bogus" sampleProc).2.2.1
        (by decide) (by decide)).1,
      ((updateErrHandling_spec "a" "b" "" id "bogus" sampleProc).2.2.1
        (by decide) (by decide)).2.1⟩⟩

/-- Claim C9.  With a `nil` error, `simpleExitOnErr`, `detailExitOnErr` and hence
`ExitOnErr` under either strategy do nothing, whatever the cleanup callbacks:
the process state is the same afterwards (nothing printed, the state the
callbacks act on unchanged) and `os.Exit` is not called. -/
theorem exitOnErr_nil {σ : Type} (now : String)
    (cleanFuncs : List (Option (Proc σ → Proc σ))) (p : Proc σ) :
    simpleExitOnErr now none cleanFuncs p = (p, none) ∧
    detailExitOnErr now none cleanFuncs p = (p, none) ∧
    ∀ h : HandleErr, h.call now none cleanFuncs p = (p, none) := by
  refine ⟨rfl, rfl, ?_⟩
  intro h
  cases h <;> rfl

theorem runCleanFuncs_eq_foldl {σ : Type} (cleanFuncs : List (Option (Proc σ → Proc σ)))
    (p : Proc σ) :
    runCleanFuncs cleanFuncs p = cleanFuncs.reduceOption.foldl (fun q f => f q) p := by
  induction cleanFuncs generalizing p with
  | nil => rfl
  | cons f rest ih =>
    cases f with
    | none => simpa [runCleanFuncs, List.reduceOption_cons_of_none] using ih p
    | some g => simpa [runCleanFuncs, List.reduceOption_cons_of_some] using ih (g p)

/-- Claim C10.  With a non-nil error `e`, each exit handler first prints its
message, then runs the cleanup callbacks one after the other in the order
supplied, each once (a `nil` entry of the slice is skipped), and then calls
`os.Exit(1)`: the final state is the state after the print, passed through the
callbacks from first to last, and the exit status is 1. -/
theorem exitOnErr_some {σ : Type} (now : String) (e : GoError)
    (cleanFuncs : List (Option (Proc σ → Proc σ))) (p : Proc σ) :
    simpleExitOnErr now (some e) cleanFuncs p =
      (cleanFuncs.reduceOption.foldl (fun q f => f q)
        (p.print (utilsPrintf now ("exit on fatal error: " ++ e.Error ++ "\n"))), some 1) ∧
    detailExitOnErr now (some e) cleanFuncs p =
      (cleanFuncs.reduceOption.foldl (fun q f => f q)
        (p.print (utilsPrintf now
          ("exit on fatal error: " ++ (WithMessage (unwrapLoop e) e.Error).detail ++ "\n"))),
        some 1) ∧
    ∀ h : HandleErr, ∃ msg,
      h.call now (some e) cleanFuncs p =
        (cleanFuncs.reduceOption.foldl (fun q f => f q) (p.print msg), some 1) := by
  have hs : simpleExitOnErr now (some e) cleanFuncs p =
      (cleanFuncs.reduceOption.foldl (fun q f => f q)
        (p.print (utilsPrintf now ("exit on fatal error: " ++ e.Error ++ "\n"))), some 1) := by
    simp [simpleExitOnErr, runCleanFuncs_eq_foldl]
  have hd : detailExitOnErr now (some e) cleanFuncs p =
      (cleanFuncs.reduceOption.foldl (fun q f => f q)
        (p.print (utilsPrintf now
          ("exit on fatal error: " ++ (WithMessage (unwrapLoop e) e.Error).detail ++ "\n"))),
        some 1) := by
    simp [detailExitOnErr, runCleanFuncs_eq_foldl]
  refine ⟨hs, hd, ?_⟩
  intro h
  cases h
  · exact ⟨_, hs⟩
  · exact ⟨_, hd⟩

/-! ## The unwrap loop -/

theorem length_chain (e : GoError) : (chain e).length = depth e + 1 := by
  induction e with
  | root s d => rfl
  | wrap s d c ih => simp [chain, depth, ih]

theorem chain_ne_nil (e : GoError) : chain e ≠ [] := by
  cases e <;> simp [chain]

theorem getLast_chain (e : GoError) : (chain e).getLast? = some (unwrapLoop e) := by
  induction e with
  | root s d => rfl
  | wrap s d c ih =>
    simp only [chain, unwrapLoop]
    rw [List.getLast?_cons, ih]
    rfl

theorem length_dropLast_chain (e : GoError) : (chain e).dropLast.length = depth e := by
  simp [List.length_dropLast, length_chain]

theorem unwrap_unwrapLoop (e : GoError) : Unwrap (unwrapLoop e) = none := by
  induction e with
  | root s d => rfl
  | wrap s d c ih => simpa [unwrapLoop] using ih

theorem unwrapLoop_mem_chain (e : GoError) : unwrapLoop e ∈ chain e := by
  induction e with
  | root s d => simp [chain, unwrapLoop]
  | wrap s d c ih => simp [chain, unwrapLoop, ih]

theorem eq_unwrapLoop_of_mem_chain (e x : GoError) (hx : x ∈ chain e)
    (hnone : Unwrap x = none) : x = unwrapLoop e := by
  induction e with
  | root s d =>
    simpa [chain, unwrapLoop] using hx
  | wrap s d c ih =>
    simp only [chain, List.mem_cons] at hx
    rcases hx with h | h
    · subst h
      simp [Unwrap] at hnone
    · simpa [unwrapLoop] using ih h

theorem depth_le_of_mem_chain (e x : GoError) (hx : x ∈ chain e) : depth x ≤ depth e := by
  induction e with
  | root s d =>
    have : x = GoError.root s d := by simpa [chain] using hx
    subst this
    exact Nat.le_refl _
  | wrap s d c ih =>
    simp only [chain, List.mem_cons] at hx
    rcases hx with h | h
    · subst h
      exact Nat.le_refl _
    · exact Nat.le_trans (ih h) (by simp [depth])

theorem nodup_chain (e : GoError) : (chain e).Nodup := by
  induction e with
  | root s d => simp [chain]
  | wrap s d c ih =>
    simp only [chain, List.nodup_cons]
    refine ⟨?_, ih⟩
    intro hmem
    have := depth_le_of_mem_chain c _ hmem
    simp [depth] at this

theorem chain_linked (e : GoError) :
    List.Chain' (fun a b => Unwrap a = some b) (chain e) := by
  induction e with
  | root s d => simp [chain]
  | wrap s d c ih =>
    cases c with
    | root s' d' => simp [chain, Unwrap]
    | wrap s' d' c' =>
      simp only [chain] at ih ⊢
      exact List.Chain'.cons rfl ih

theorem unwrapLoopFuel_of_le (e : GoError) (fuel : Nat) (h : depth e ≤ fuel) :
    unwrapLoopFuel fuel e = some (unwrapLoop e, (chain e).dropLast) := by
  induction e generalizing fuel with
  | root s d =>
    cases fuel <;> simp [unwrapLoopFuel, Unwrap, unwrapLoop, chain]
  | wrap s d c ih =>
    cases fuel with
    | zero => simp [depth] at h
    | succ n =>
      have hc : depth c ≤ n := by simpa [depth] using h
      simp only [unwrapLoopFuel, Unwrap, ih n hc, Option.map_some', unwrapLoop, chain]
      rw [List.dropLast_cons_of_ne_nil (chain_ne_nil c)]

theorem unwrapLoopFuel_of_lt (e : GoError) (fuel : Nat) (h : fuel < depth e) :
    unwrapLoopFuel fuel e = none := by
  induction e generalizing fuel with
  | root s d => simp [depth] at h
  | wrap s d c ih =>
    cases fuel with
    | zero => simp [unwrapLoopFuel, Unwrap]
    | succ n =>
      have hc : n < depth c := by simpa [depth] using h
      simp [unwrapLoopFuel, Unwrap, ih n hc]

/-- Claim C11.  For every error chain `e` with `depth e` wrapping layers, the
loop `for ; errors.Unwrap(err) != nil; err = errors.Unwrap(err) {}` terminates:
with at least `depth e` steps allowed it ends after exactly `depth e` unwrap
steps (with fewer it has not ended), its result is the last element of the
chain, which has no inner cause and is the only element of the chain without
one, and the values it passes through are the elements of the chain before the
last, each the `Unwrap` of the one before and no two of them equal.  An error
without an inner cause is returned unchanged. -/
theorem unwrapLoop_terminates (e : GoError) :
    (∀ fuel, depth e ≤ fuel →
      unwrapLoopFuel fuel e = some (unwrapLoop e, (chain e).dropLast)) ∧
    (∀ fuel, fuel < depth e → unwrapLoopFuel fuel e = none) ∧
    (chain e).dropLast.length = depth e ∧
    (chain e).getLast? = some (unwrapLoop e) ∧
    List.Chain' (fun a b => Unwrap a = some b) (chain e) ∧
    Unwrap (unwrapLoop e) = none ∧
    (∀ x ∈ chain e, Unwrap x = none → x = unwrapLoop e) ∧
    (Unwrap e = none → unwrapLoop e = e) ∧
    (chain e).Nodup := by
  refine ⟨unwrapLoopFuel_of_le e, unwrapLoopFuel_of_lt e, length_dropLast_chain e,
    getLast_chain e, chain_linked e, unwrap_unwrapLoop e,
    fun x hx hn => eq_unwrapLoop_of_mem_chain e x hx hn, ?_, nodup_chain e⟩
  intro h
  cases e with
  | root s d => rfl
  | wrap s d c => simp [Unwrap] at h

/-- Claim C11 on `errors.Wrap(errors.Errorf("boom"), "ctx")`, a chain of two
wrapping layers: two steps reach the `Errorf` error through the stack layer and
the message layer, one step does not suffice, and the `Errorf` error alone is
returned unchanged. -/
theorem unwrapLoop_terminates_witness :
    unwrapLoopFuel 2 sampleError =
      some (Errorf "<s1>" "boom",
        [sampleError, WithMessage (Errorf "<s1>" "boom") "ctx"]) ∧
    unwrapLoopFuel 1 sampleError = none ∧
    unwrapLoop (Errorf "<s1>" "boom") = Errorf "<s1>" "boom" :=
  ⟨(unwrapLoop_terminates sampleError).1 2 (by decide),
    (unwrapLoop_terminates sampleError).2.1 1 (by decide),
    (unwrapLoop_terminates (Errorf "<s1>" "boom")).2.2.2.2.2.2.2.1 rfl⟩

/-! ## The report of the exit handlers -/

theorem detailExitOnErr_report {σ : Type} (now : String) (e : GoError)
    (cleanFuncs : List (Option (Proc σ → Proc σ))) (p : Proc σ) :
    detailExitOnErr now (some e) cleanFuncs p =
      (runCleanFuncs cleanFuncs
        (p.print (utilsPrintf now
          ("exit on fatal error: " ++ ((unwrapLoop e).detail ++ "\n" ++ e.Error) ++ "\n"))),
        some 1) := rfl

theorem simpleExitOnErr_report {σ : Type} (now : String) (e : GoError)
    (cleanFuncs : List (Option (Proc σ → Proc σ))) (p : Proc σ) :
    simpleExitOnErr now (some e) cleanFuncs p =
      (runCleanFuncs cleanFuncs
        (p.print (utilsPrintf now ("exit on fatal error: " ++ e.Error ++ "\n"))), some 1) := rfl

/-- Claim C12.  For a non-nil error `e`, with `root` the last element of its
chain (the element without an inner cause): `detailExitOnErr` prints the `%+v`
rendering of `root` followed on a new line by `e.Error()`, the message of the
error as passed in, before any unwrapping; `simpleExitOnErr` prints `e.Error()`
only, so that its report is the same for any two errors with the same
`Error()` text, whatever their root causes.  The cleanup callbacks run on the
state after the print. -/
theorem exit_reports {σ : Type} (now : String) (e : GoError)
    (cleanFuncs : List (Option (Proc σ → Proc σ))) (p : Proc σ) :
    ∃ root : GoError,
      (chain e).getLast? = some root ∧ Unwrap root = none ∧
      detailExitOnErr now (some e) cleanFuncs p =
        (runCleanFuncs cleanFuncs
          (p.print (utilsPrintf now
            ("exit on fatal error: " ++ (root.detail ++ "\n" ++ e.Error) ++ "\n"))),
          some 1) ∧
      (detailExitOnErr now (some e) [] p).1.out =
        p.out ++ [utilsPrintf now
          ("exit on fatal error: " ++ (root.detail ++ "\n" ++ e.Error) ++ "\n")] ∧
      simpleExitOnErr now (some e) cleanFuncs p =
        (runCleanFuncs cleanFuncs
          (p.print (utilsPrintf now ("exit on fatal error: " ++ e.Error ++ "\n"))), some 1) ∧
      (simpleExitOnErr now (some e) [] p).1.out =
        p.out ++ [utilsPrintf now ("exit on fatal error: " ++ e.Error ++ "\n")] ∧
      (∀ e' : GoError, e'.Error = e.Error →
        simpleExitOnErr now (some e') cleanFuncs p =
          simpleExitOnErr now (some e) cleanFuncs p) := by
  refine ⟨unwrapLoop e, getLast_chain e, unwrap_unwrapLoop e,
    detailExitOnErr_report now e cleanFuncs p, ?_, simpleExitOnErr_report now e cleanFuncs p,
    ?_, ?_⟩
  · rw [detailExitOnErr_report]
    rfl
  · rw [simpleExitOnErr_report]
    rfl
  · intro e' he
    rw [simpleExitOnErr_report, simpleExitOnErr_report, he]

/-- Claim C12 on `errors.Wrap(errors.Errorf("boom"), "ctx")`: the detail report
is the rendering `boom<s1>` of the root followed by the outer message
`ctx: boom`; the simple report is `ctx: boom` alone, and is the same for the
error `ctx: boom` without any cause. -/
theorem exit_reports_witness :
    (detailExitOnErr "t" (some sampleError) [] sampleProc).1.out =
      ["t * * * * * * exit on fatal error: boom<s1>\nctx: boom\n\n"] ∧
    (simpleExitOnErr "t" (some sampleError) [] sampleProc).1.out =
      ["t * * * * * * exit on fatal error: ctx: boom\n\n"] ∧
    simpleExitOnErr "t" (some (GoError.root "ctx: boom" "")) [] sampleProc =
      simpleExitOnErr "t" (some sampleError) [] sampleProc := by
  obtain ⟨root, hlast, _, _, hd, _, hs, hsame⟩ :=
    exit_reports "t" sampleError [] sampleProc
  have hroot : root = Errorf "<s1>" "boom" := by
    have h : (chain sampleError).getLast? = some (Errorf "<s1>" "boom") := by decide
    rw [h] at hlast
    exact (Option.some.inj hlast).symm
  subst hroot
  refine ⟨?_, ?_, hsame _ (by decide)⟩
  · rw [hd]
    decide
  · rw [hs]
    decide

/-! ## `wrapSugaredLogger.Debugf` -/

/-- Claim C13, which the code does not meet.  The claim is that
`wrapSugaredLogger.Debugf` emits its record at debug level, so that the record
is suppressed when the configured level is info, as the record of
`wrapSugaredLogger.Debug` is.  On a logger configured at info level, for every
template and argument list: `Debugf` writes one record, at info level; `Debug`
writes none, and neither does zap's own `Debugf`; the body of `Debugf` is zap's
`Infof` on every logger. -/
theorem debugf_logs_at_info {A : Type} (getMessage : String → List A → String)
    (template : String) (args : List A) :
    wrapSugaredLogger.Debugf getMessage { logger := sampleLogger InfoLevel } template args =
      [{ level := InfoLevel, msg := getMessage template args }] ∧
    wrapSugaredLogger.Debug getMessage { logger := sampleLogger InfoLevel } args = [] ∧
    Zap.Debugf getMessage (sampleLogger InfoLevel) template args = [] ∧
    (∀ w : wrapSugaredLogger,
      wrapSugaredLogger.Debugf getMessage w template args =
        Zap.Infof getMessage w.logger template args) := by
  refine ⟨?_, ?_, ?_, fun _ => rfl⟩
  · simp [wrapSugaredLogger.Debugf, Zap.Infof, sugaredLog, sampleLogger, Level.Enabled]
  · simp [wrapSugaredLogger.Debug, Zap.Debug, sugaredLog, sampleLogger, Level.Enabled,
      InfoLevel, DebugLevel]
  · simp [Zap.Debugf, sugaredLog, sampleLogger, Level.Enabled, InfoLevel, DebugLevel]

/-! ## `InitLogger` on failure -/

theorem mem_chain_wrap (stack : String) (err : GoError) (message : String) :
    err ∈ chain (Wrap stack err message) := by
  have hself : err ∈ chain err := by
    cases err <;> simp [chain]
  simp [Wrap, WithMessage, chain, hself]

theorem applyOptions_of_optionsApply {α : Type} [LogOption α] (bitmap : LogOptionType)
    (l : List (LogOptionType × α)) (c c' : Config) (h : OptionsApply bitmap l c c') :
    applyOptions bitmap l c = .ok c' := by
  induction l generalizing c with
  | nil =>
    simp only [OptionsApply] at h
    subst h
    rfl
  | cons e rest ih =>
    obtain ⟨k, v⟩ := e
    obtain ⟨c₁, hv, hrest⟩ := h
    simp only [applyOptions, hv]
    exact ih c₁ hrest

theorem optionsApply_of_applyOptions {α : Type} [LogOption α] (bitmap : LogOptionType)
    (l : List (LogOptionType × α)) (c c' : Config) (h : applyOptions bitmap l c = .ok c') :
    OptionsApply bitmap l c c' := by
  induction l generalizing c with
  | nil =>
    simp only [applyOptions, Except.ok.injEq] at h
    exact h.symm
  | cons e rest ih =>
    obtain ⟨k, v⟩ := e
    simp only [applyOptions] at h
    cases hv : LogOption.ConfigLogger v bitmap c with
    | error err =>
      rw [hv] at h
      cases h
    | ok c₁ =>
      rw [hv] at h
      exact ⟨c₁, hv, ih c₁ h⟩

/-- The loop stops at the first option that fails: the options before it having
succeeded, its error is the result, whatever follows it. -/
theorem applyOptions_first_failure {α : Type} [LogOption α] (bitmap : LogOptionType)
    (pre post : List (LogOptionType × α)) (k : LogOptionType) (v : α) (c c₁ : Config)
    (err : GoError) (hpre : OptionsApply bitmap pre c c₁)
    (hv : LogOption.ConfigLogger v bitmap c₁ = .error err) :
    applyOptions bitmap (pre ++ (k, v) :: post) c = .error err := by
  induction pre generalizing c with
  | nil =>
    simp only [OptionsApply] at hpre
    subst hpre
    simp [applyOptions, hv]
  | cons e rest ih =>
    obtain ⟨k', v'⟩ := e
    obtain ⟨c₂, hv', hrest⟩ := hpre
    simp only [List.cons_append, applyOptions, hv']
    exact ih c₂ hrest

/-- An error of the loop is the error of some option, returned on the
configuration left by the options before it, which all succeeded. -/
theorem applyOptions_error_split {α : Type} [LogOption α] (bitmap : LogOptionType)
    (l : List (LogOptionType × α)) (c : Config) (err : GoError)
    (h : applyOptions bitmap l c = .error err) :
    ∃ pre k v post c₁, l = pre ++ (k, v) :: post ∧ OptionsApply bitmap pre c c₁ ∧
      LogOption.ConfigLogger v bitmap c₁ = .error err := by
  induction l generalizing c with
  | nil => simp [applyOptions] at h
  | cons e rest ih =>
    obtain ⟨k, v⟩ := e
    simp only [applyOptions] at h
    cases hv : LogOption.ConfigLogger v bitmap c with
    | error err' =>
      rw [hv] at h
      simp only [Except.error.injEq] at h
      subst h
      exact ⟨[], k, v, rest, c, rfl, rfl, hv⟩
    | ok c₂ =>
      rw [hv] at h
      obtain ⟨pre, k', v', post, c₁, hsplit, hpre, hfail⟩ := ih c₂ h
      exact ⟨(k, v) :: pre, k', v', post, c₁, by rw [hsplit]; rfl, ⟨c₂, hv, hpre⟩, hfail⟩

/-- An option of the list that fails on every configuration makes the loop
fail, wherever it stands in the list. -/
theorem applyOptions_error_of_mem {α : Type} [LogOption α] (bitmap : LogOptionType)
    (l : List (LogOptionType × α)) (c : Config) (k : LogOptionType) (v : α)
    (hmem : (k, v) ∈ l)
    (hfail : ∀ c', ∃ e, LogOption.ConfigLogger v bitmap c' = .error e) :
    ∃ err, applyOptions bitmap l c = .error err := by
  induction l generalizing c with
  | nil => simp at hmem
  | cons e rest ih =>
    obtain ⟨k', v'⟩ := e
    simp only [applyOptions]
    cases hv : LogOption.ConfigLogger v' bitmap c with
    | error err' => exact ⟨err', rfl⟩
    | ok c₂ =>
      rcases List.mem_cons.mp hmem with heq | hrest
      · simp only [Prod.mk.injEq] at heq
        obtain ⟨_, rfl⟩ := heq
        obtain ⟨e, he⟩ := hfail c
        rw [he] at hv
        cases hv
      · exact ih c₂ hrest

/-- Claim C14.  For every option list, over any implementation of `LogOption`
and any visiting order of the map.  (1) When, in visiting order, the options
before some entry succeed and that entry's `ConfigLogger` returns an error,
`InitLogger` stops there and returns that error wrapped as "failed to apply
options", with neither teardown nor configuration, whatever entries follow.
(2) When the map is visited as a permutation of its entries and some surviving
option fails on every configuration, `InitLogger` returns an error wrapped in
the same way.  (3) When all options succeed and `cfg.Build` fails on the final
configuration, `InitLogger` returns that error wrapped as "failed to build
global logger".  (4) Whenever `InitLogger` returns an error, the global logger,
the state of the callbacks and `ExitOnErr` are what they were, and the error
is one of the two above.  (5) When it returns a teardown and a configuration,
every option succeeded, the build succeeded, the global logger is the one built
from that configuration, and the teardown restores the previous one. -/
theorem initLogger_atomic {α σ : Type} [LogOption α] (now stack : String) (ndc : Config)
    (buildErr : Config → Option GoError)
    (visit : List (LogOptionType × α) → List (LogOptionType × α))
    (options : List α) (p : Proc σ) :
    (∀ pre k v post c₁ err,
      visit (tidyOptsAndCalBitmap options).1 = pre ++ (k, v) :: post →
      OptionsApply (tidyOptsAndCalBitmap options).2 pre (baseConfig ndc) c₁ →
      LogOption.ConfigLogger v (tidyOptsAndCalBitmap options).2 c₁ = .error err →
      InitLogger now stack ndc buildErr visit options p =
        (.error (Wrap stack err "failed to apply options"),
          p.print (utilsPrintln now "start to init log system.")) ∧
      err ∈ chain (Wrap stack err "failed to apply options")) ∧
    ((visit (tidyOptsAndCalBitmap options).1).Perm (tidyOptsAndCalBitmap options).1 →
      ∀ k v, (k, v) ∈ (tidyOptsAndCalBitmap options).1 →
      (∀ c, ∃ e, LogOption.ConfigLogger v (tidyOptsAndCalBitmap options).2 c = .error e) →
      ∃ cause,
        InitLogger now stack ndc buildErr visit options p =
          (.error (Wrap stack cause "failed to apply options"),
            p.print (utilsPrintln now "start to init log system."))) ∧
    (∀ cfg err,
      OptionsApply (tidyOptsAndCalBitmap options).2 (visit (tidyOptsAndCalBitmap options).1)
        (baseConfig ndc) cfg →
      buildErr cfg = some err →
      InitLogger now stack ndc buildErr visit options p =
        (.error (Wrap stack err "failed to build global logger"),
          p.print (utilsPrintln now "start to init log system.")) ∧
      err ∈ chain (Wrap stack err "failed to build global logger")) ∧
    (∀ e p', InitLogger now stack ndc buildErr visit options p = (.error e, p') →
      p'.globalL = p.globalL ∧ p'.user = p.user ∧ p'.ExitOnErr = p.ExitOnErr ∧
      ((∃ pre k v post c₁ err,
          visit (tidyOptsAndCalBitmap options).1 = pre ++ (k, v) :: post ∧
          OptionsApply (tidyOptsAndCalBitmap options).2 pre (baseConfig ndc) c₁ ∧
          LogOption.ConfigLogger v (tidyOptsAndCalBitmap options).2 c₁ = .error err ∧
          e = Wrap stack err "failed to apply options") ∨
        (∃ cfg err,
          OptionsApply (tidyOptsAndCalBitmap options).2
            (visit (tidyOptsAndCalBitmap options).1) (baseConfig ndc) cfg ∧
          buildErr cfg = some err ∧
          e = Wrap stack err "failed to build global logger"))) ∧
    (∀ undo cfg p', InitLogger now stack ndc buildErr visit options p = (.ok (undo, cfg), p') →
      OptionsApply (tidyOptsAndCalBitmap options).2 (visit (tidyOptsAndCalBitmap options).1)
        (baseConfig ndc) cfg ∧
      buildErr cfg = none ∧
      p'.globalL = some { cfg := cfg, addCaller := true, callerSkip := 1 } ∧
      ∀ q : Proc σ, (undo q).globalL = p.globalL) := by
  refine ⟨?_, ?_, ?_, ?_, ?_⟩
  · intro pre k v post c₁ err hsplit hpre hv
    have happ := applyOptions_first_failure _ pre post k v _ c₁ err hpre hv
    rw [← hsplit] at happ
    rw [initLogger_eq, happ]
    exact ⟨rfl, mem_chain_wrap _ _ _⟩
  · intro hvisit k v hmem hfail
    obtain ⟨cause, happ⟩ := applyOptions_error_of_mem (tidyOptsAndCalBitmap options).2
      (visit (tidyOptsAndCalBitmap options).1) (baseConfig ndc) k v
      (hvisit.mem_iff.mpr hmem) hfail
    refine ⟨cause, ?_⟩
    rw [initLogger_eq, happ]
  · intro cfg err hall hb
    have happ := applyOptions_of_optionsApply _ _ _ _ hall
    rw [initLogger_eq, happ]
    exact ⟨by simp [buildLogger, hb], mem_chain_wrap _ _ _⟩
  · intro e p' h
    rw [initLogger_eq] at h
    cases happ : applyOptions (tidyOptsAndCalBitmap options).2
        (visit (tidyOptsAndCalBitmap options).1) (baseConfig ndc) with
    | error err0 =>
      rw [happ] at h
      simp only [Prod.mk.injEq, Except.error.injEq] at h
      obtain ⟨rfl, rfl⟩ := h
      obtain ⟨pre, k, v, post, c₁, hsplit, hpre, hv⟩ := applyOptions_error_split _ _ _ _ happ
      exact ⟨rfl, rfl, rfl, Or.inl ⟨pre, k, v, post, c₁, err0, hsplit, hpre, hv, rfl⟩⟩
    | ok cfg0 =>
      rw [happ] at h
      have hall := optionsApply_of_applyOptions _ _ _ _ happ
      cases hb : buildErr cfg0 with
      | some berr =>
        simp only [buildLogger, hb, Prod.mk.injEq, Except.error.injEq] at h
        obtain ⟨rfl, rfl⟩ := h
        exact ⟨rfl, rfl, rfl, Or.inr ⟨cfg0, berr, hall, hb, rfl⟩⟩
      | none =>
        simp [buildLogger, hb, ReplaceGlobals] at h
  · intro undo cfg p' h
    rw [initLogger_eq] at h
    cases happ : applyOptions (tidyOptsAndCalBitmap options).2
        (visit (tidyOptsAndCalBitmap options).1) (baseConfig ndc) with
    | error err0 =>
      rw [happ] at h
      simp at h
    | ok cfg0 =>
      rw [happ] at h
      have hall := optionsApply_of_applyOptions _ _ _ _ happ
      cases hb : buildErr cfg0 with
      | some berr =>
        simp [buildLogger, hb] at h
      | none =>
        simp only [buildLogger, hb, ReplaceGlobals, Prod.mk.injEq, Except.ok.injEq] at h
        obtain ⟨⟨rfl, rfl⟩, rfl⟩ := h
        exact ⟨hall, hb, rfl, fun _ => rfl⟩

/-- Claim C14 on failures in a process that already has a global logger.  Of
three options the second fails: visiting the map in insertion order, the
log-level option is applied, the failing option stops the loop and the
file-path option after it is never reached; visiting it in reverse, the call
fails as well.  With built-in options and a build that fails, the build error
comes back wrapped.  In each case the state afterwards differs from the state
before only by the line printed at the start, so the global logger is the one
installed before. -/
theorem initLogger_atomic_witness :
    InitLogger "t" "<s>" sampleConfig (fun _ => none) id sampleMixedOptions
        sampleProcLogging =
      (.error (Wrap "<s>" (Errorf "" "bad option") "failed to apply options"),
        sampleProcLogging.print (utilsPrintln "t" "start to init log system.")) ∧
    (∃ cause,
      InitLogger "t" "<s>" sampleConfig (fun _ => none) List.reverse sampleMixedOptions
          sampleProcLogging =
        (.error (Wrap "<s>" cause "failed to apply options"),
          sampleProcLogging.print (utilsPrintln "t" "start to init log system."))) ∧
    InitLogger "t" "<s>" sampleConfig (fun _ => some (Errorf "" "cannot open sink"))
        List.reverse
        [Builtin.enableLogFileOption, Builtin.logFilePathOption "/nonexistent/x.log"]
        sampleProcLogging =
      (.error (Wrap "<s>" (Errorf "" "cannot open sink") "failed to build global logger"),
        sampleProcLogging.print (utilsPrintln "t" "start to init log system.")) ∧
    (sampleProcLogging.print (utilsPrintln "t" "start to init log system.")).globalL =
      some (sampleLogger WarnLevel) :=
  ⟨((initLogger_atomic "t" "<s>" sampleConfig (fun _ => none) id sampleMixedOptions
        sampleProcLogging).1
      [(1, .inl (.logLevelOption WarnLevel))] 8
      (.inr { kind := 8, err := Errorf "" "bad option" })
      [(4, .inl (.logFilePathOption "/tmp/eke.log"))]
      { baseConfig sampleConfig with Level := WarnLevel } (Errorf "" "bad option")
      rfl ⟨_, rfl, rfl⟩ rfl).1,
    (initLogger_atomic "t" "<s>" sampleConfig (fun _ => none) List.reverse sampleMixedOptions
        sampleProcLogging).2.1
      (List.reverse_perm _) 8 (.inr { kind := 8, err := Errorf "" "bad option" })
      (List.mem_cons_of_mem _ (List.mem_cons_self _ _)) (fun _ => ⟨_, rfl⟩),
    ((initLogger_atomic "t" "<s>" sampleConfig (fun _ => some (Errorf "" "cannot open sink"))
        List.reverse
        [Builtin.enableLogFileOption, Builtin.logFilePathOption "/nonexistent/x.log"]
        sampleProcLogging).2.2.1
      { baseConfig sampleConfig with OutputPaths := ["stdout", "/nonexistent/x.log"] }
      (Errorf "" "cannot open sink") ⟨_, rfl, _, rfl, rfl⟩ rfl).1,
    rfl⟩

end Cks
